import Mathlib

/-!
Shallow embedding of `src/contacts_api.py` (a FastAPI contacts CRUD service
persisting to a CSV file) and verification of its specification claims.

Modelling conventions:
* Python strings are modelled as `List Char` (sequences of code points).
* The persisted CSV file is modelled at the decoded-row level: a file is
  either absent (`none`) or a list of rows, each row a list of cell strings.
  The `csv` library's encoding of rows to text is a faithful inverse pair on
  rows (its documented contract), so the row level is where the program's own
  logic lives.
* Machine-level ints are Python arbitrary-precision ints, modelled by `Int`.
* A handler that would raise an uncaught exception (e.g. `int()` on a
  malformed cell, or `.lower()` on `None`) is modelled as returning `none`.
-/

namespace ContactsApi

/-- Python strings modelled as lists of code points. -/
abbrev Str := List Char

/-- A decoded CSV row: one cell string per column. -/
abbrev Row := List Str

/-- The persisted file: `none` when the file does not exist, otherwise the
decoded rows (header row included, in file order). -/
abbrev FileState := Option (List Row)

/-! ### Decimal printing and parsing

`save_contacts` writes the integer `id` cell via Python `str`, and
`retrieve_contacts` reads it back via Python `int`.  We model `str` on
integers exactly, and `int` on the canonical decimal strings `str`
produces (Python `int` additionally strips whitespace and allows
underscores, which never occur in cells written by `str`). -/

/-- The decimal digit character for `n < 10` (code point `48 + n`). -/
def digitChar (n : Nat) : Char := Char.ofNat (48 + n)

/-- Decimal digits of `n`, most significant first; `fuel` bounds recursion
depth (any `fuel > n` is enough since `n / 10 < n` for `n ≥ 10`). -/
def natToDigitsAux : Nat → Nat → Str
  | 0, _ => []
  | fuel + 1, n =>
    if n < 10 then [digitChar n]
    else natToDigitsAux fuel (n / 10) ++ [digitChar (n % 10)]

/-- Decimal digits of a natural number, as Python `str` prints them. -/
def natToDigits (n : Nat) : Str := natToDigitsAux (n + 1) n

/-- Python `str` on an int: a minus sign for negatives, then the digits. -/
def intToStr (i : Int) : Str :=
  if i < 0 then '-' :: natToDigits i.natAbs else natToDigits i.toNat

/-- Value of a decimal digit character, `none` for non-digits. -/
def digitVal (c : Char) : Option Nat :=
  if '0' ≤ c ∧ c ≤ '9' then some (c.toNat - 48) else none

/-- Fold the remaining digit characters onto the accumulator `acc`;
fails on the first non-digit, as Python `int` rejects the whole string. -/
def parseNatAux : Nat → Str → Option Nat
  | acc, [] => some acc
  | acc, c :: cs =>
    match digitVal c with
    | none => none
    | some d => parseNatAux (acc * 10 + d) cs

/-- Parse a nonempty all-digit string; Python `int` raises on `""`. -/
def parseNat : Str → Option Nat
  | [] => none
  | c :: cs => parseNatAux 0 (c :: cs)

/-- Python `int` on the canonical decimal strings produced by `str`:
an optional sign followed by digits. -/
def parseInt (s : Str) : Option Int :=
  match s with
  | [] => none
  | c :: cs =>
    if c = '-' then (parseNat cs).map (fun n => -(n : Int))
    else if c = '+' then (parseNat cs).map (fun n => (n : Int))
    else (parseNat (c :: cs)).map (fun n => (n : Int))

/-! ### Data model

`Contact` (the pydantic request model) carries `name`, optional `email`
and `phone`; the stored record dict additionally carries the assigned
integer `id`.  Request-body validation (field lengths, email format) is
enforced by the framework boundary before a handler runs and is out of
scope here; handlers accept any payload. -/

/-- The request payload (pydantic `Contact`): `email` may be absent. -/
structure ContactInput where
  name : Str
  email : Option Str
  phone : Str
deriving DecidableEq

/-- A stored contact dict, as built by the handlers: `email` is `none`
exactly when the Python dict holds `None` there. -/
structure ContactRec where
  id : Int
  name : Str
  email : Option Str
  phone : Str
deriving DecidableEq

/-! ### Record store: `save_contacts` and `retrieve_contacts` -/

def idKey : Str := "id".toList

def nameKey : Str := "name".toList

def emailKey : Str := "email".toList

def phoneKey : Str := "phone".toList

/-- The header row `id,name,email,phone` written by `DictWriter.writeheader`. -/
def csvHeader : Row := [idKey, nameKey, emailKey, phoneKey]

/-- `csv` writes a `None` field as the empty cell and a string as itself. -/
def encodeEmail : Option Str → Str
  | none => []
  | some s => s

/-- The cells `DictWriter.writerow` emits for one contact dict: the int `id`
via `str`, the string fields verbatim, a `None` email as the empty cell. -/
def encodeRow (c : ContactRec) : Row :=
  [intToStr c.id, c.name, encodeEmail c.email, c.phone]

/-- `save_contacts`: overwrite the file with the header row followed by one
row per contact, in order (always a full rewrite). -/
def save_contacts (contacts : List ContactRec) : FileState :=
  some (csvHeader :: contacts.map encodeRow)

/-- `DictReader` row lookup: `dict(zip(header, row)).get(key)` — the cell in
the column named `key`, `none` when the key is no column or the row is too
short (Python fills short rows with `restval=None`).  A duplicated header
name would differ (Python keeps the last duplicate, this takes the first),
but `save_contacts` never writes one. -/
def fieldValue (header row : Row) (key : Str) : Option Str :=
  (header.findIdx? (fun k => k == key)).bind (fun i => row[i]?)

/-- Decode one data row into a contact dict, as the loop body of
`retrieve_contacts` does: `int(row.get('id'))` raises on a missing or
malformed id cell (modelled as `none`); `email` is stored as read, so a
missing email column yields a `None` email.  A missing `name`/`phone`
column would store `None` and crash only in later handlers; we flag it at
load time, a difference visible only for files this system never writes. -/
def decodeRow (header row : Row) : Option ContactRec := do
  let idStr ← fieldValue header row idKey
  let id ← parseInt idStr
  let name ← fieldValue header row nameKey
  let phone ← fieldValue header row phoneKey
  pure { id := id, name := name, email := fieldValue header row emailKey, phone := phone }

/-- Decode the data rows in order; `DictReader` skips blank rows; the first
row that raises aborts the whole load. -/
def decodeRows (header : Row) : List Row → Option (List ContactRec)
  | [] => some []
  | r :: rs =>
    if r.isEmpty then decodeRows header rs
    else do
      let c ← decodeRow header r
      let cs ← decodeRows header rs
      pure (c :: cs)

/-- `retrieve_contacts`: an absent file is an empty collection; otherwise the
first row is the header (`DictReader.fieldnames`) and the rest are decoded in
file order. -/
def retrieve_contacts : FileState → Option (List ContactRec)
  | none => some []
  | some [] => some []
  | some (header :: rows) => decodeRows header rows

/-- What one save/load cycle does to a record: a `None` email comes back as
the empty string (the CSV cell), everything else is untouched. -/
def normalizeRec (c : ContactRec) : ContactRec :=
  { c with email := some (encodeEmail c.email) }

/-! ### Response envelope -/

/-- The `data` field of a response dict: absent (the 404 branch of
`get_contact` builds no `data` key), a single record, or a list. -/
inductive RespData where
  | missing : RespData
  | record : ContactRec → RespData
  | listing : List ContactRec → RespData
deriving DecidableEq

/-- A `JSONResponse`: the envelope fields `code` and `message`, the payload
`data`, and the HTTP `status_code` passed to `JSONResponse`. -/
structure Resp where
  code : Nat
  message : Str
  data : RespData
  status : Nat
deriving DecidableEq

def msgCreated : Str := "Contact created successfully".toList

def msgUpdated : Str := "Contact updated successfully".toList

def msgNotExist : Str := "Contact does not exist".toList

def msgNoMatch : Str := "No match found".toList

def msgRetrieved : Str := "Contacts retrieved successfully".toList

def msgOneRetrieved : Str := "Contact retrieved successfully".toList

def msgNoContacts : Str := "No contacts found".toList

/-! ### Search primitives: Python `str.lower` and `in` -/

/-- Python `str.lower` on one character, on the ASCII range (the only range
these handlers are specified over). -/
def lowerChar (c : Char) : Char :=
  if 'A' ≤ c ∧ c ≤ 'Z' then Char.ofNat (c.toNat + 32) else c

/-- Python `str.lower`. -/
def pyLower (s : Str) : Str := s.map lowerChar

/-- Does `hay` start with `needle`? (helper for the substring test). -/
def beginsWith : Str → Str → Bool
  | [], _ => true
  | _ :: _, [] => false
  | a :: as, b :: bs => a == b && beginsWith as bs

/-- Python `needle in hay` on strings: contiguous substring occurrence;
the empty needle occurs in everything. -/
def pyIn : Str → Str → Bool
  | needle, [] => needle.isEmpty
  | needle, c :: t => beginsWith needle (c :: t) || pyIn needle t

/-- The mathematical substring relation, to tie `pyIn` to the spec's words. -/
def SubstringOf (needle hay : Str) : Prop := ∃ s t, hay = s ++ needle ++ t

/-! ### Request handlers

Each handler is `Load → compute → [Save] → envelope`, on the shared file
state.  The result is `none` when the Python code would raise (an uncaught
exception instead of a response). -/

/-- `max([...ids...], default=0)` from `create_contact`. -/
def maxIds : List Int → Int
  | [] => 0
  | x :: xs => xs.foldl max x

def contactIds (cs : List ContactRec) : List Int := cs.map (·.id)

/-- The `new_contact` dict built by `create_contact`: the payload fields plus
the id `max([ids], default=0) + 1`. -/
def new_contact (contacts : List ContactRec) (contact : ContactInput) : ContactRec :=
  { id := maxIds (contactIds contacts) + 1, name := contact.name, email := contact.email,
    phone := contact.phone }

/-- `POST /api/contacts`. -/
def create_contact (file : FileState) (contact : ContactInput) :
    Option (FileState × Resp) :=
  match retrieve_contacts file with
  | none => none
  | some contacts =>
    some (save_contacts (contacts ++ [new_contact contacts contact]),
      { code := 200, message := msgCreated, data := .record (new_contact contacts contact),
        status := 200 })

/-- In-place overwrite of the first dict with the given id, as the mutation
of the dict found by `next(...)` acts on the loaded list. -/
def updateFirst (id : Int) (contact : ContactInput) : List ContactRec → List ContactRec
  | [] => []
  | c :: cs =>
    if c.id == id then
      { c with name := contact.name, email := contact.email, phone := contact.phone } :: cs
    else c :: updateFirst id contact cs

/-- `PUT /api/contacts/{id}`. -/
def update_contact (file : FileState) (id : Int) (contact : ContactInput) :
    Option (FileState × Resp) :=
  match retrieve_contacts file with
  | none => none
  | some contacts =>
    match contacts.find? (fun c => c.id == id) with
    | none =>
      some (file, { code := 404, message := msgNotExist, data := .listing [], status := 404 })
    | some c =>
      some (save_contacts (updateFirst id contact contacts),
        { code := 200
          message := msgUpdated
          data := .record { c with name := contact.name, email := contact.email, phone := contact.phone }
          status := 200 })

/-- The per-record test of `search_contacts`: `query in name.lower() or
query in email.lower()` — Python `or` short-circuits, and `.lower()` on a
`None` email raises (`none` here). -/
def contactMatches (q : Str) (c : ContactRec) : Option Bool :=
  if pyIn q (pyLower c.name) then some true
  else c.email.map (fun e => pyIn q (pyLower e))

/-- The list comprehension of `search_contacts`: elements tested in order,
the first raising test aborts the request. -/
def filterMatches (q : Str) : List ContactRec → Option (List ContactRec)
  | [] => some []
  | c :: cs => do
    let b ← contactMatches q c
    let rest ← filterMatches q cs
    pure (if b then c :: rest else rest)

/-- `GET /api/contacts/search?query=` (the query defaults to the empty
string when absent). -/
def search_contacts (file : FileState) (query : Str) : Option (FileState × Resp) :=
  match retrieve_contacts file with
  | none => none
  | some contacts =>
    match filterMatches (pyLower query) contacts with
    | none => none
    | some matched =>
      if matched.isEmpty then
        some (file, { code := 200, message := msgNoMatch, data := .listing [], status := 200 })
      else
        some (file,
          { code := 200, message := msgRetrieved, data := .listing matched, status := 200 })

/-- `GET /api/contacts/{id:int}`.  The 404 response dict carries no `data`
key at all. -/
def get_contact (file : FileState) (id : Int) : Option (FileState × Resp) :=
  match retrieve_contacts file with
  | none => none
  | some contacts =>
    match contacts.find? (fun c => c.id == id) with
    | none =>
      some (file, { code := 404, message := msgNotExist, data := .missing, status := 404 })
    | some c =>
      some (file, { code := 200, message := msgOneRetrieved, data := .record c, status := 200 })

/-- `GET /api/contacts`. -/
def get_all_contacts (file : FileState) : Option (FileState × Resp) :=
  match retrieve_contacts file with
  | none => none
  | some contacts =>
    if contacts.isEmpty then
      some (file, { code := 200, message := msgNoContacts, data := .listing [], status := 200 })
    else
      some (file, { code := 200, message := msgRetrieved, data := .listing contacts, status := 200 })

/-- The id of the record in a response's `data`, if any. -/
def respId : Resp → Option Int
  | { data := .record c, .. } => some c.id
  | _ => none

/-- Drive a sequence of create requests against the evolving file, collecting
the ids assigned in the responses. -/
def runCreates : FileState → List ContactInput → Option (FileState × List Int)
  | file, [] => some (file, [])
  | file, input :: rest =>
    match create_contact file input with
    | none => none
    | some fr =>
      match respId fr.2 with
      | none => none
      | some i =>
        match runCreates fr.1 rest with
        | none => none
        | some pr => some (pr.1, i :: pr.2)

/-- The per-record predicate the spec describes: the (lowered) query occurs
in the lowered name or the lowered email, a `None` email read as empty. -/
def plainMatch (q : Str) (c : ContactRec) : Bool :=
  pyIn q (pyLower c.name) || pyIn q (pyLower (c.email.getD []))

/-- A concrete record with a missing (`None`) email, as `create_contact`
stores for a payload sent without an email. -/
def contactAnn : ContactRec :=
  { id := 1, name := ['A', 'n', 'n'], email := none,
    phone := ['5', '5', '5', '1', '2', '3', '4', '5', '6', '7'] }

/-- A concrete record with a present email. -/
def contactBo : ContactRec :=
  { id := 2, name := ['B', 'o'], email := some ['b', '@', 'x', '.', 'y'],
    phone := ['5', '5', '5', '9', '8', '7', '6', '5', '4', '3'] }

def inputAnn : ContactInput :=
  { name := ['A', 'n', 'n'], email := none,
    phone := ['5', '5', '5', '1', '2', '3', '4', '5', '6', '7'] }

def inputBo : ContactInput :=
  { name := ['B', 'o'], email := some ['b', '@', 'x', '.', 'y'],
    phone := ['5', '5', '5', '9', '8', '7', '6', '5', '4', '3'] }

/-! ### Helper lemmas -/

lemma natToDigitsAux_fuel (n : Nat) :
    ∀ f g, n < f → n < g → natToDigitsAux f n = natToDigitsAux g n := by
  induction n using Nat.strong_induction_on with
  | _ n ih =>
    intro f g hf hg
    match f, g with
    | f' + 1, g' + 1 =>
      by_cases h10 : n < 10
      · simp [natToDigitsAux, h10]
      · have hlt : n / 10 < n := Nat.div_lt_self (by omega) (by omega)
        simp only [natToDigitsAux, h10, if_false]
        rw [ih (n / 10) hlt f' g' (by omega) (by omega)]

lemma natToDigits_eq_small {n : Nat} (h : n < 10) :
    natToDigits n = [digitChar n] := by
  simp [natToDigits, natToDigitsAux, h]

lemma natToDigits_eq_large {n : Nat} (h : ¬ n < 10) :
    natToDigits n = natToDigits (n / 10) ++ [digitChar (n % 10)] := by
  have hlt : n / 10 < n := Nat.div_lt_self (by omega) (by omega)
  have h1 : natToDigits n =
      if n < 10 then [digitChar n]
      else natToDigitsAux n (n / 10) ++ [digitChar (n % 10)] := rfl
  rw [h1, if_neg h, natToDigitsAux_fuel (n / 10) n (n / 10 + 1) hlt (by omega)]
  rfl

lemma natToDigits_ne_nil (n : Nat) : natToDigits n ≠ [] := by
  by_cases h : n < 10
  · simp [natToDigits_eq_small h]
  · simp [natToDigits_eq_large h]

lemma digitVal_digitChar {d : Nat} (h : d < 10) :
    digitVal (digitChar d) = some d := by
  interval_cases d <;> decide

lemma parseNatAux_append (l₁ l₂ : Str) : ∀ acc,
    parseNatAux acc (l₁ ++ l₂) =
      (parseNatAux acc l₁).bind (fun m => parseNatAux m l₂) := by
  induction l₁ with
  | nil => intro acc; simp [parseNatAux]
  | cons c cs ih =>
    intro acc
    cases h : digitVal c with
    | none => simp [parseNatAux, h]
    | some d => simp [parseNatAux, h, ih]

lemma parseNatAux_natToDigits (n : Nat) : ∀ acc,
    parseNatAux acc (natToDigits n) =
      some (acc * 10 ^ (natToDigits n).length + n) := by
  induction n using Nat.strong_induction_on with
  | _ n ih =>
    intro acc
    by_cases h : n < 10
    · rw [natToDigits_eq_small h]
      simp [parseNatAux, digitVal_digitChar h]
    · have hlt : n / 10 < n := Nat.div_lt_self (by omega) (by omega)
      have h9 : n % 10 < 10 := Nat.mod_lt n (by omega)
      rw [natToDigits_eq_large h, parseNatAux_append, ih (n / 10) hlt acc]
      simp only [Option.bind_some, parseNatAux, digitVal_digitChar h9,
        List.length_append, List.length_cons, List.length_nil, Nat.zero_add]
      show some ((acc * 10 ^ (natToDigits (n / 10)).length + n / 10) * 10 + n % 10) =
        some (acc * 10 ^ ((natToDigits (n / 10)).length + 1) + n)
      congr 1
      have hdm : n / 10 * 10 + n % 10 = n := by omega
      calc (acc * 10 ^ (natToDigits (n / 10)).length + n / 10) * 10 + n % 10
          = acc * (10 ^ (natToDigits (n / 10)).length * 10) + (n / 10 * 10 + n % 10) := by
            ring
        _ = _ := by rw [← pow_succ, hdm]

lemma parseNat_natToDigits (n : Nat) : parseNat (natToDigits n) = some n := by
  cases h : natToDigits n with
  | nil => exact absurd h (natToDigits_ne_nil n)
  | cons c cs =>
    have h0 := parseNatAux_natToDigits n 0
    rw [h] at h0
    simpa [parseNat] using h0

lemma natToDigits_head (n : Nat) :
    ∃ d cs, natToDigits n = digitChar d :: cs ∧ d < 10 := by
  induction n using Nat.strong_induction_on with
  | _ n ih =>
    by_cases h : n < 10
    · exact ⟨n, [], natToDigits_eq_small h, h⟩
    · have hlt : n / 10 < n := Nat.div_lt_self (by omega) (by omega)
      obtain ⟨d, cs, hd, hdlt⟩ := ih (n / 10) hlt
      exact ⟨d, cs ++ [digitChar (n % 10)], by rw [natToDigits_eq_large h, hd]; rfl, hdlt⟩

lemma digitChar_ne_minus {d : Nat} (h : d < 10) : digitChar d ≠ '-' := by
  interval_cases d <;> decide

lemma digitChar_ne_plus {d : Nat} (h : d < 10) : digitChar d ≠ '+' := by
  interval_cases d <;> decide

/-- Python `int` inverts Python `str` on every integer. -/
theorem parseInt_intToStr (i : Int) : parseInt (intToStr i) = some i := by
  by_cases h : i < 0
  · rw [intToStr, if_pos h]
    show (parseNat (natToDigits i.natAbs)).map (fun n => -(n : Int)) = some i
    rw [parseNat_natToDigits]
    show some (-(i.natAbs : Int)) = some i
    congr 1
    omega
  · rw [intToStr, if_neg h]
    obtain ⟨d, cs, hd, hdlt⟩ := natToDigits_head i.toNat
    rw [hd]
    simp only [parseInt]
    rw [if_neg (digitChar_ne_minus hdlt), if_neg (digitChar_ne_plus hdlt), ← hd,
      parseNat_natToDigits]
    show some ((i.toNat : Int)) = some i
    congr 1
    omega

lemma decodeRow_encodeRow (c : ContactRec) :
    decodeRow csvHeader (encodeRow c) = some (normalizeRec c) := by
  have h : decodeRow csvHeader (encodeRow c) =
      (parseInt (intToStr c.id)).bind (fun id =>
        some { id := id, name := c.name, email := some (encodeEmail c.email),
               phone := c.phone }) := rfl
  rw [h, parseInt_intToStr]
  rfl

lemma decodeRows_encode (cs : List ContactRec) :
    decodeRows csvHeader (cs.map encodeRow) = some (cs.map normalizeRec) := by
  induction cs with
  | nil => rfl
  | cons c cs ih =>
    simp only [List.map_cons, decodeRows, List.isEmpty_cons, Bool.false_eq_true, if_false,
      decodeRow_encodeRow, Option.bind_some, ih]
    rfl

/-- Saving then loading yields the collection with every record normalized. -/
theorem retrieve_save (cs : List ContactRec) :
    retrieve_contacts (save_contacts cs) = some (cs.map normalizeRec) := by
  simp only [save_contacts, retrieve_contacts, decodeRows_encode]

lemma normalizeRec_of_some {c : ContactRec} (h : c.email ≠ none) :
    normalizeRec c = c := by
  cases c with
  | mk id name email phone =>
    cases email with
    | none => exact absurd rfl h
    | some e => rfl

lemma map_normalizeRec_of_some {cs : List ContactRec} (h : ∀ c ∈ cs, c.email ≠ none) :
    cs.map normalizeRec = cs := by
  induction cs with
  | nil => rfl
  | cons c cs ih =>
    rw [List.map_cons, normalizeRec_of_some (h c (by simp)), ih]
    intro x hx
    exact h x (by simp [hx])

lemma beginsWith_iff (needle hay : Str) :
    beginsWith needle hay = true ↔ ∃ t, hay = needle ++ t := by
  induction needle generalizing hay with
  | nil => simp [beginsWith]
  | cons a as ih =>
    cases hay with
    | nil => simp [beginsWith]
    | cons b bs =>
      simp only [beginsWith, Bool.and_eq_true, beq_iff_eq, ih, List.cons_append,
        List.cons.injEq]
      constructor
      · rintro ⟨rfl, t, rfl⟩
        exact ⟨t, rfl, rfl⟩
      · rintro ⟨t, rfl, rfl⟩
        exact ⟨rfl, t, rfl⟩

/-- `pyIn` decides exactly the substring relation. -/
theorem pyIn_iff_substring (needle hay : Str) :
    pyIn needle hay = true ↔ SubstringOf needle hay := by
  unfold SubstringOf
  induction hay with
  | nil =>
    simp only [pyIn, List.isEmpty_iff]
    constructor
    · rintro rfl
      exact ⟨[], [], rfl⟩
    · rintro ⟨s, t, h⟩
      rcases List.append_eq_nil.mp h.symm with ⟨h1, h2⟩
      exact (List.append_eq_nil.mp h1).2
  | cons c cs ih =>
    simp only [pyIn, Bool.or_eq_true, beginsWith_iff, ih]
    constructor
    · rintro (⟨t, ht⟩ | ⟨s, t, ht⟩)
      · exact ⟨[], t, by simpa using ht⟩
      · exact ⟨c :: s, t, by simp [ht]⟩
    · rintro ⟨s, t, h⟩
      cases s with
      | nil =>
        left
        exact ⟨t, by simpa using h⟩
      | cons x xs =>
        right
        rw [List.cons_append, List.cons_append, List.cons.injEq] at h
        exact ⟨xs, t, h.2⟩

/-- The empty string occurs in every string. -/
lemma pyIn_nil (hay : Str) : pyIn [] hay = true := by
  cases hay with
  | nil => rfl
  | cons c t => rfl



lemma create_contact_eq {file : FileState} {contacts : List ContactRec}
    (h : retrieve_contacts file = some contacts) (input : ContactInput) :
    create_contact file input =
      some (save_contacts (contacts ++ [new_contact contacts input]),
        { code := 200, message := msgCreated, data := .record (new_contact contacts input),
          status := 200 }) := by
  simp only [create_contact, h]

lemma new_contact_id (contacts : List ContactRec) (input : ContactInput) :
    (new_contact contacts input).id = maxIds (contactIds contacts) + 1 := rfl

lemma le_foldl_max_init (b : Int) (l : List Int) : b ≤ l.foldl max b := by
  induction l generalizing b with
  | nil => simp
  | cons x xs ih => exact le_trans (le_max_left b x) (ih (max b x))

lemma le_foldl_max_mem {a : Int} {l : List Int} (b : Int) (h : a ∈ l) :
    a ≤ l.foldl max b := by
  induction l generalizing b with
  | nil => cases h
  | cons x xs ih =>
    rcases List.mem_cons.mp h with rfl | h'
    · exact le_trans (le_max_right b a) (le_foldl_max_init _ _)
    · exact ih _ h'

lemma le_maxIds {a : Int} {l : List Int} (h : a ∈ l) : a ≤ maxIds l := by
  cases l with
  | nil => cases h
  | cons x xs =>
    rcases List.mem_cons.mp h with rfl | h'
    · exact le_foldl_max_init _ _
    · exact le_foldl_max_mem _ h'

lemma maxIds_append_gt {l : List Int} {a : Int} (h : maxIds l < a) :
    maxIds (l ++ [a]) = a := by
  cases l with
  | nil => rfl
  | cons x xs =>
    show List.foldl max x (xs ++ [a]) = a
    rw [List.foldl_append]
    exact max_eq_right (le_of_lt h)

lemma contactIds_map_normalize (cs : List ContactRec) :
    contactIds (cs.map normalizeRec) = contactIds cs := by
  show (cs.map normalizeRec).map _ = cs.map _
  rw [List.map_map]
  rfl

lemma contactIds_append_one (cs : List ContactRec) (c : ContactRec) :
    contactIds (cs ++ [c]) = contactIds cs ++ [c.id] := by
  simp [contactIds]

lemma find?_eq_some_decomp {p : ContactRec → Bool} {l : List ContactRec} {c : ContactRec}
    (h : l.find? p = some c) :
    ∃ pre post, l = pre ++ c :: post ∧ (∀ x ∈ pre, p x = false) ∧ p c = true := by
  induction l with
  | nil => simp [List.find?] at h
  | cons x xs ih =>
    cases hp : p x with
    | true =>
      rw [List.find?_cons_of_pos _ hp] at h
      obtain rfl := Option.some.inj h
      exact ⟨[], xs, rfl, by simp, hp⟩
    | false =>
      rw [List.find?_cons_of_neg _ (by simp [hp])] at h
      obtain ⟨pre, post, rfl, hpre, hc⟩ := ih h
      refine ⟨x :: pre, post, rfl, ?_, hc⟩
      intro y hy
      rcases List.mem_cons.mp hy with rfl | hy'
      · exact hp
      · exact hpre y hy'

lemma find?_append_first {p : ContactRec → Bool} {pre : List ContactRec}
    (h : ∀ x ∈ pre, p x = false) {c : ContactRec} (hc : p c = true)
    (post : List ContactRec) :
    (pre ++ c :: post).find? p = some c := by
  induction pre with
  | nil => simp [List.find?_cons_of_pos _ hc]
  | cons x xs ih =>
    rw [List.cons_append, List.find?_cons_of_neg _ (by simp [h x (by simp)])]
    exact ih (fun y hy => h y (by simp [hy]))

lemma updateFirst_append {id : Int} {input : ContactInput} {pre : List ContactRec}
    (h : ∀ x ∈ pre, (x.id == id) = false) {c : ContactRec} (hc : (c.id == id) = true)
    (post : List ContactRec) :
    updateFirst id input (pre ++ c :: post) =
      pre ++ { c with name := input.name, email := input.email, phone := input.phone }
        :: post := by
  induction pre with
  | nil => simp [updateFirst, hc]
  | cons x xs ih =>
    rw [List.cons_append, updateFirst, if_neg (by simp [h x (by simp)]), ih
      (fun y hy => h y (by simp [hy]))]
    rfl

lemma contactMatches_eq_plain {q : Str} {c : ContactRec} (h : c.email ≠ none) :
    contactMatches q c = some (plainMatch q c) := by
  obtain ⟨e, he⟩ := Option.ne_none_iff_exists'.mp h
  rw [contactMatches, plainMatch, he]
  by_cases hn : pyIn q (pyLower c.name)
  · simp [hn]
  · simp [hn]

lemma filterMatches_eq_filter {q : Str} {cs : List ContactRec}
    (h : ∀ c ∈ cs, c.email ≠ none) :
    filterMatches q cs = some (cs.filter (plainMatch q)) := by
  induction cs with
  | nil => rfl
  | cons c cs ih =>
    rw [filterMatches, contactMatches_eq_plain (h c (by simp)),
      ih (fun x hx => h x (by simp [hx]))]
    simp only [Option.bind_some, List.filter_cons]
    cases plainMatch q c <;> rfl

lemma search_contacts_eq {file : FileState} {contacts : List ContactRec}
    (h : retrieve_contacts file = some contacts)
    (hsome : ∀ c ∈ contacts, c.email ≠ none) (query : Str) :
    search_contacts file query =
      (if (contacts.filter (plainMatch (pyLower query))).isEmpty then
        some (file, { code := 200, message := msgNoMatch, data := .listing [], status := 200 })
      else
        some (file,
          { code := 200
            message := msgRetrieved
            data := .listing (contacts.filter (plainMatch (pyLower query)))
            status := 200 })) := by
  simp only [search_contacts, h, filterMatches_eq_filter hsome]

lemma encodeRow_normalizeRec (c : ContactRec) :
    encodeRow (normalizeRec c) = encodeRow c := by
  cases c with
  | mk id name email phone => cases email <;> rfl

lemma map_encodeRow_normalize (l : List ContactRec) :
    (l.map normalizeRec).map encodeRow = l.map encodeRow := by
  induction l with
  | nil => rfl
  | cons c cs ih => simp [encodeRow_normalizeRec, ih]

lemma save_map_normalize (cs : List ContactRec) :
    save_contacts (cs.map normalizeRec) = save_contacts cs := by
  rw [save_contacts, save_contacts, map_encodeRow_normalize]

lemma save_sandwich_normalize (pre post : List ContactRec) (u : ContactRec) :
    save_contacts (pre.map normalizeRec ++ u :: post.map normalizeRec) =
      save_contacts (pre ++ u :: post) := by
  rw [save_contacts, save_contacts]
  congr 1
  congr 1
  rw [List.map_append, List.map_append, map_encodeRow_normalize, List.map_cons, List.map_cons,
    map_encodeRow_normalize]

lemma find?_eq_none_of_ids {contacts : List ContactRec} {id : Int}
    (hid : ∀ c ∈ contacts, c.id ≠ id) :
    contacts.find? (fun c => c.id == id) = none := by
  rw [List.find?_eq_none]
  intro x hx
  simpa using hid x hx

lemma update_contact_notfound {file : FileState} {contacts : List ContactRec} {id : Int}
    (h : retrieve_contacts file = some contacts)
    (hid : ∀ c ∈ contacts, c.id ≠ id) (input : ContactInput) :
    update_contact file id input =
      some (file, { code := 404, message := msgNotExist, data := .listing [], status := 404 }) := by
  simp only [update_contact, h, find?_eq_none_of_ids hid]

lemma update_contact_found {file : FileState} {contacts : List ContactRec} {id : Int}
    {c : ContactRec} (h : retrieve_contacts file = some contacts)
    (hf : contacts.find? (fun x => x.id == id) = some c) (input : ContactInput) :
    update_contact file id input =
      some (save_contacts (updateFirst id input contacts),
        { code := 200
          message := msgUpdated
          data := .record { c with name := input.name, email := input.email, phone := input.phone }
          status := 200 }) := by
  simp only [update_contact, h, hf]

lemma get_contact_notfound {file : FileState} {contacts : List ContactRec} {id : Int}
    (h : retrieve_contacts file = some contacts) (hid : ∀ c ∈ contacts, c.id ≠ id) :
    get_contact file id =
      some (file, { code := 404, message := msgNotExist, data := .missing, status := 404 }) := by
  simp only [get_contact, h, find?_eq_none_of_ids hid]

lemma get_contact_found {file : FileState} {contacts : List ContactRec} {id : Int}
    {c : ContactRec} (h : retrieve_contacts file = some contacts)
    (hf : contacts.find? (fun x => x.id == id) = some c) :
    get_contact file id =
      some (file, { code := 200, message := msgOneRetrieved, data := .record c, status := 200 }) := by
  simp only [get_contact, h, hf]

lemma get_all_contacts_eq {file : FileState} {contacts : List ContactRec}
    (h : retrieve_contacts file = some contacts) :
    get_all_contacts file =
      (if contacts.isEmpty then
        some (file, { code := 200, message := msgNoContacts, data := .listing [], status := 200 })
      else
        some (file,
          { code := 200, message := msgRetrieved, data := .listing contacts, status := 200 })) := by
  simp only [get_all_contacts, h]

lemma runCreates_bounded : ∀ (inputs : List ContactInput) (file : FileState)
    (contacts : List ContactRec) (file' : FileState) (ids : List Int),
    retrieve_contacts file = some contacts →
    runCreates file inputs = some (file', ids) →
    List.Chain' (· < ·) ids ∧ ∀ a ∈ ids, maxIds (contactIds contacts) < a := by
  intro inputs
  induction inputs with
  | nil =>
    intro file contacts file' ids h hrun
    simp only [runCreates, Option.some.injEq, Prod.mk.injEq] at hrun
    obtain ⟨rfl, rfl⟩ := hrun
    exact ⟨List.chain'_nil, by simp⟩
  | cons input rest ih =>
    intro file contacts file' ids h hrun
    simp only [runCreates, create_contact_eq h input, respId] at hrun
    cases hr : runCreates
        (save_contacts (contacts ++ [new_contact contacts input])) rest with
    | none => rw [hr] at hrun; cases hrun
    | some pr =>
      rw [hr] at hrun
      simp only [Option.some.injEq, Prod.mk.injEq] at hrun
      obtain ⟨rfl, rfl⟩ := hrun
      have h1 : retrieve_contacts
          (save_contacts (contacts ++ [new_contact contacts input])) =
          some ((contacts ++ [new_contact contacts input]).map normalizeRec) :=
        retrieve_save _
      obtain ⟨hch, hbd⟩ := ih _ _ _ _ h1 hr
      have hmax : maxIds (contactIds
          ((contacts ++ [new_contact contacts input]).map normalizeRec)) =
          maxIds (contactIds contacts) + 1 := by
        rw [contactIds_map_normalize, contactIds_append_one, new_contact_id]
        exact maxIds_append_gt (by omega)
      rw [hmax] at hbd
      constructor
      · rw [List.chain'_cons']
        refine ⟨fun b hb => hbd b (List.mem_of_mem_head? hb), hch⟩
      · intro a ha
        rcases List.mem_cons.mp ha with rfl | ha'
        · rw [new_contact_id]
          omega
        · have := hbd a ha'
          omega

lemma update_twice {file : FileState} {contacts : List ContactRec} {id : Int}
    (h : retrieve_contacts file = some contacts)
    (hex : ∃ c ∈ contacts, c.id = id) (input : ContactInput) :
    ∃ f₁ r₁, update_contact file id input = some (f₁, r₁) ∧
      update_contact f₁ id input = some (f₁, r₁) := by
  obtain ⟨c0, hc0, hc0id⟩ := hex
  have hsome : (contacts.find? (fun x => x.id == id)).isSome := by
    rw [List.find?_isSome]
    exact ⟨c0, hc0, by simp [hc0id]⟩
  obtain ⟨c, hfc⟩ := Option.isSome_iff_exists.mp hsome
  obtain ⟨pre, post, hdecomp, hpre, hcid⟩ := find?_eq_some_decomp hfc
  subst hdecomp
  have h1 := update_contact_found h hfc input
  rw [updateFirst_append hpre hcid post] at h1
  have h2load : retrieve_contacts (save_contacts
      (pre ++ { c with name := input.name, email := input.email, phone := input.phone }
        :: post)) =
      some (pre.map normalizeRec ++
        normalizeRec { c with name := input.name, email := input.email, phone := input.phone }
          :: post.map normalizeRec) := by
    rw [retrieve_save, List.map_append, List.map_cons]
  have hpre2 : ∀ x ∈ pre.map normalizeRec, ((x.id == id) : Bool) = false := by
    intro x hx
    obtain ⟨y, hy, rfl⟩ := List.mem_map.mp hx
    simpa [normalizeRec] using hpre y hy
  have hcid2 :
      (((normalizeRec { c with name := input.name, email := input.email, phone := input.phone }).id
        == id) : Bool) = true := by
    simpa [normalizeRec] using hcid
  have hfc2 := find?_append_first hpre2 hcid2 (post.map normalizeRec)
  have h2 := update_contact_found h2load hfc2 input
  rw [updateFirst_append hpre2 hcid2 (post.map normalizeRec)] at h2
  refine ⟨_, _, h1, ?_⟩
  rw [h2]
  have hu :
      ({ (normalizeRec { c with name := input.name, email := input.email, phone := input.phone }) with name := input.name, email := input.email, phone := input.phone } : ContactRec) =
      { c with name := input.name, email := input.email, phone := input.phone } := rfl
  rw [hu, save_sandwich_normalize]

/-! ### The specification claims -/

/-- C1: on any loadable collection, a create assigns the new record the id
`max(existing ids, default 0) + 1` (so `1` on the empty collection), appends
it at the end, persists the full collection, and returns the created record
with code 200; over any sequence of create requests the ids assigned in the
responses are strictly increasing. -/
theorem claim_C1 :
    (∀ (file : FileState) (contacts : List ContactRec) (input : ContactInput),
      retrieve_contacts file = some contacts →
      create_contact file input =
        some (save_contacts (contacts ++ [new_contact contacts input]),
          { code := 200, message := msgCreated, data := .record (new_contact contacts input),
            status := 200 }) ∧
      (new_contact contacts input).id = maxIds (contactIds contacts) + 1 ∧
      (contacts = [] → (new_contact contacts input).id = 1)) ∧
    (∀ (file : FileState) (inputs : List ContactInput) (file' : FileState) (ids : List Int),
      runCreates file inputs = some (file', ids) → List.Chain' (· < ·) ids) := by
  constructor
  · intro file contacts input h
    refine ⟨create_contact_eq h input, rfl, ?_⟩
    rintro rfl
    rfl
  · intro file inputs file' ids hrun
    cases inputs with
    | nil =>
      simp only [runCreates, Option.some.injEq, Prod.mk.injEq] at hrun
      obtain ⟨-, rfl⟩ := hrun
      exact List.chain'_nil
    | cons input rest =>
      cases hload : retrieve_contacts file with
      | none => simp [runCreates, create_contact, hload] at hrun
      | some contacts =>
        exact (runCreates_bounded (input :: rest) file contacts file' ids hload hrun).1

theorem claim_C1_witness :
    create_contact none inputAnn =
      some (save_contacts [new_contact [] inputAnn],
        { code := 200, message := msgCreated, data := .record (new_contact [] inputAnn),
          status := 200 }) ∧
    List.Chain' (· < ·) ([1, 2] : List Int) := by
  constructor
  · simpa using (claim_C1.1 none [] inputAnn rfl).1
  · obtain ⟨f, hf⟩ : ∃ f, runCreates none [inputAnn, inputBo] = some (f, [1, 2]) := ⟨_, rfl⟩
    exact claim_C1.2 none [inputAnn, inputBo] f [1, 2] hf

/-- C2 counterexample: a record whose email is `None` is not returned intact
by a save/load cycle — its email comes back as the empty string. -/
theorem claim_C2_cex :
    retrieve_contacts (save_contacts [contactAnn]) ≠ some [contactAnn] := by
  rw [retrieve_save]
  decide

/-- C2 (amended): saving then loading yields the collection with each record
normalized — order and every `id`, `name` and `phone` are preserved, an email
that is a string is preserved, and a missing (`None`) email is loaded back as
the empty string; in particular the round trip is the identity on every
collection whose records all carry an email string. -/
theorem claim_C2 :
    (∀ cs : List ContactRec,
      retrieve_contacts (save_contacts cs) = some (cs.map normalizeRec)) ∧
    (∀ c : ContactRec, (normalizeRec c).id = c.id ∧ (normalizeRec c).name = c.name ∧
      (normalizeRec c).phone = c.phone ∧
      (∀ e, c.email = some e → (normalizeRec c).email = some e) ∧
      (c.email = none → (normalizeRec c).email = some [])) ∧
    (∀ cs : List ContactRec, (∀ c ∈ cs, c.email ≠ none) →
      retrieve_contacts (save_contacts cs) = some cs) := by
  refine ⟨retrieve_save, ?_, ?_⟩
  · intro c
    refine ⟨rfl, rfl, rfl, ?_, ?_⟩
    · intro e he
      simp [normalizeRec, he, encodeEmail]
    · intro he
      simp [normalizeRec, he, encodeEmail]
  · intro cs h
    rw [retrieve_save, map_normalizeRec_of_some h]

theorem claim_C2_witness :
    retrieve_contacts (save_contacts [contactBo]) = some [contactBo] :=
  claim_C2.2.2 [contactBo] (by decide)

/-- C3: on any loadable collection whose records carry email strings (as
every collection this system writes does), search returns, with code 200,
exactly the contacts whose lowered name or lowered email contains the
lowered query as a substring (`pyIn` being exactly substring occurrence);
the empty query matches every record, so it returns the whole collection. -/
theorem claim_C3 :
    (∀ (file : FileState) (contacts : List ContactRec) (query : Str),
      retrieve_contacts file = some contacts → (∀ c ∈ contacts, c.email ≠ none) →
      ∃ r : Resp, search_contacts file query = some (file, r) ∧ r.code = 200 ∧
        r.status = 200 ∧ r.data = .listing (contacts.filter (plainMatch (pyLower query)))) ∧
    (∀ needle hay : Str, pyIn needle hay = true ↔ SubstringOf needle hay) ∧
    (∀ c : ContactRec, plainMatch (pyLower []) c = true) ∧
    (∀ (file : FileState) (contacts : List ContactRec),
      retrieve_contacts file = some contacts → (∀ c ∈ contacts, c.email ≠ none) →
      ∃ r : Resp, search_contacts file [] = some (file, r) ∧ r.data = .listing contacts) := by
  have hall : ∀ c : ContactRec, plainMatch (pyLower []) c = true := by
    intro c
    show plainMatch [] c = true
    rw [plainMatch, pyIn_nil]
    rfl
  have main : ∀ (file : FileState) (contacts : List ContactRec) (query : Str),
      retrieve_contacts file = some contacts → (∀ c ∈ contacts, c.email ≠ none) →
      ∃ r : Resp, search_contacts file query = some (file, r) ∧ r.code = 200 ∧
        r.status = 200 ∧ r.data = .listing (contacts.filter (plainMatch (pyLower query))) := by
    intro file contacts query h hsome
    rw [search_contacts_eq h hsome query]
    by_cases hE : (contacts.filter (plainMatch (pyLower query))).isEmpty
    · rw [if_pos hE, List.isEmpty_iff.mp hE]
      exact ⟨_, rfl, rfl, rfl, rfl⟩
    · rw [if_neg hE]
      exact ⟨_, rfl, rfl, rfl, rfl⟩
  refine ⟨main, pyIn_iff_substring, hall, ?_⟩
  intro file contacts h hsome
  obtain ⟨r, hs, -, -, hd⟩ := main file contacts [] h hsome
  refine ⟨r, hs, ?_⟩
  rw [hd, List.filter_eq_self.mpr (fun a _ => hall a)]

theorem claim_C3_witness :
    (∃ r : Resp, search_contacts (save_contacts [contactBo]) ['o'] =
        some (save_contacts [contactBo], r) ∧ r.code = 200 ∧ r.status = 200 ∧
        r.data = .listing ([contactBo].filter (plainMatch (pyLower ['o'])))) ∧
    (∃ r : Resp, search_contacts (save_contacts [contactBo]) [] =
        some (save_contacts [contactBo], r) ∧ r.data = .listing [contactBo]) := by
  constructor
  · exact claim_C3.1 (save_contacts [contactBo]) [contactBo] ['o'] (by decide) (by decide)
  · exact claim_C3.2.2.2 (save_contacts [contactBo]) [contactBo] (by decide) (by decide)

/-- C4: on any loadable collection, get and update at an absent id both
return the code-404 not-found response (no partial data, no crash), and get
at a present id returns the first matching contact with code 200. -/
theorem claim_C4 :
    (∀ (file : FileState) (contacts : List ContactRec) (id : Int) (input : ContactInput),
      retrieve_contacts file = some contacts → (∀ c ∈ contacts, c.id ≠ id) →
      get_contact file id =
        some (file, { code := 404, message := msgNotExist, data := .missing, status := 404 }) ∧
      update_contact file id input =
        some (file,
          { code := 404, message := msgNotExist, data := .listing [], status := 404 })) ∧
    (∀ (file : FileState) (contacts : List ContactRec) (id : Int) (c : ContactRec),
      retrieve_contacts file = some contacts →
      contacts.find? (fun x => x.id == id) = some c →
      get_contact file id =
        some (file,
          { code := 200, message := msgOneRetrieved, data := .record c, status := 200 })) :=
  ⟨fun _ _ _ input h hid =>
    ⟨get_contact_notfound h hid, update_contact_notfound h hid input⟩,
   fun _ _ _ _ h hf => get_contact_found h hf⟩

theorem claim_C4_witness :
    get_contact (save_contacts [contactBo]) 99 =
      some (save_contacts [contactBo],
        { code := 404, message := msgNotExist, data := .missing, status := 404 }) ∧
    get_contact (save_contacts [contactBo]) 2 =
      some (save_contacts [contactBo],
        { code := 200, message := msgOneRetrieved, data := .record contactBo,
          status := 200 }) := by
  constructor
  · exact (claim_C4.1 _ [contactBo] 99 inputAnn (by decide) (by decide)).1
  · exact claim_C4.2 _ [contactBo] 2 contactBo (by decide) (by decide)

/-- C5: updating a present id overwrites exactly the first matching record's
name, email and phone, keeps its id, leaves every other record and the order
untouched, persists the full collection, and returns the updated record with
code 200. -/
theorem claim_C5 : ∀ (file : FileState) (pre post : List ContactRec) (c : ContactRec)
    (id : Int) (input : ContactInput),
    retrieve_contacts file = some (pre ++ c :: post) →
    (∀ x ∈ pre, x.id ≠ id) → c.id = id →
    update_contact file id input =
      some (save_contacts
          (pre ++ { c with name := input.name, email := input.email, phone := input.phone }
            :: post),
        { code := 200
          message := msgUpdated
          data := .record { c with name := input.name, email := input.email, phone := input.phone }
          status := 200 }) ∧
    ({ c with name := input.name, email := input.email, phone := input.phone } : ContactRec).id
      = c.id := by
  intro file pre post c id input h hpre hcid
  have hpre' : ∀ x ∈ pre, ((x.id == id) : Bool) = false := fun x hx => by simp [hpre x hx]
  have hcid' : ((c.id == id) : Bool) = true := by simp [hcid]
  have h1 := update_contact_found h (find?_append_first hpre' hcid' post) input
  rw [updateFirst_append hpre' hcid' post] at h1
  exact ⟨h1, rfl⟩

theorem claim_C5_witness :
    update_contact (save_contacts [contactBo]) 2 inputAnn =
      some (save_contacts
          ([] ++ { contactBo with name := inputAnn.name, email := inputAnn.email, phone := inputAnn.phone } :: []),
        { code := 200
          message := msgUpdated
          data := .record { contactBo with name := inputAnn.name, email := inputAnn.email, phone := inputAnn.phone }
          status := 200 }) :=
  (claim_C5 (save_contacts [contactBo]) [] [] contactBo 2 inputAnn (by decide) (by decide)
    (by decide)).1

/-- C6: update is idempotent — on any loadable collection containing the
target id, running the same update twice leaves the persisted file exactly
as after running it once, and returns the same response both times. -/
theorem claim_C6 : ∀ (file : FileState) (contacts : List ContactRec) (id : Int)
    (input : ContactInput),
    retrieve_contacts file = some contacts →
    (∃ c ∈ contacts, c.id = id) →
    ∃ f₁ r₁, update_contact file id input = some (f₁, r₁) ∧
      update_contact f₁ id input = some (f₁, r₁) :=
  fun _ _ _ input h hex => update_twice h hex input

theorem claim_C6_witness :
    ∃ f₁ r₁, update_contact (save_contacts [contactBo]) 2 inputAnn = some (f₁, r₁) ∧
      update_contact f₁ 2 inputAnn = some (f₁, r₁) :=
  claim_C6 (save_contacts [contactBo]) [contactBo] 2 inputAnn (by decide)
    ⟨contactBo, by decide, by decide⟩

/-- C7: when no loaded contact's lowered name or email contains the lowered
query, search returns code 200 (also as HTTP status) with an empty data list
and the no-match message — a success, not an error. -/
theorem claim_C7 : ∀ (file : FileState) (contacts : List ContactRec) (query : Str),
    retrieve_contacts file = some contacts → (∀ c ∈ contacts, c.email ≠ none) →
    (∀ c ∈ contacts, plainMatch (pyLower query) c = false) →
    search_contacts file query =
      some (file, { code := 200, message := msgNoMatch, data := .listing [], status := 200 }) := by
  intro file contacts query h hsome hno
  rw [search_contacts_eq h hsome query]
  have hE : contacts.filter (plainMatch (pyLower query)) = [] := by
    rw [List.filter_eq_nil_iff]
    intro a ha
    simp [hno a ha]
  rw [hE]
  rfl

theorem claim_C7_witness :
    search_contacts (save_contacts [contactBo]) ['z'] =
      some (save_contacts [contactBo],
        { code := 200, message := msgNoMatch, data := .listing [], status := 200 }) :=
  claim_C7 _ [contactBo] ['z'] (by decide) (by decide) (by decide)

/-- C8: a missing persisted file loads as the empty collection, and listing
an empty collection returns code 200 with an empty data list, not 404. -/
theorem claim_C8 :
    retrieve_contacts none = some [] ∧
    (∀ file : FileState, retrieve_contacts file = some [] →
      get_all_contacts file =
        some (file,
          { code := 200, message := msgNoContacts, data := .listing [], status := 200 })) := by
  refine ⟨rfl, ?_⟩
  intro file h
  rw [get_all_contacts_eq h]
  rfl

theorem claim_C8_witness :
    get_all_contacts none =
      some (none, { code := 200, message := msgNoContacts, data := .listing [], status := 200 }) :=
  claim_C8.2 none rfl

/-- C9: update at an absent id returns the 404 response with the file state
it loaded — no save happens on the not-found path. -/
theorem claim_C9 : ∀ (file : FileState) (contacts : List ContactRec) (id : Int)
    (input : ContactInput),
    retrieve_contacts file = some contacts → (∀ c ∈ contacts, c.id ≠ id) →
    update_contact file id input =
      some (file, { code := 404, message := msgNotExist, data := .listing [], status := 404 }) :=
  fun _ _ _ input h hid => update_contact_notfound h hid input

theorem claim_C9_witness :
    update_contact (save_contacts [contactBo]) 99 inputAnn =
      some (save_contacts [contactBo],
        { code := 404, message := msgNotExist, data := .listing [], status := 404 }) :=
  claim_C9 _ [contactBo] 99 inputAnn (by decide) (by decide)

/-- C10: the three read operations — list all, get by id, search — never
save: whenever one of them returns, the file state it returns is the file
state it was given. -/
theorem claim_C10 : ∀ (file f' : FileState) (r : Resp) (id : Int) (query : Str),
    (get_all_contacts file = some (f', r) → f' = file) ∧
    (get_contact file id = some (f', r) → f' = file) ∧
    (search_contacts file query = some (f', r) → f' = file) := by
  intro file f' r id query
  refine ⟨?_, ?_, ?_⟩
  · intro hg
    cases hload : retrieve_contacts file with
    | none => simp [get_all_contacts, hload] at hg
    | some contacts =>
      simp only [get_all_contacts, hload] at hg
      split at hg <;>
        (simp only [Option.some.injEq, Prod.mk.injEq] at hg; exact hg.1.symm)
  · intro hg
    cases hload : retrieve_contacts file with
    | none => simp [get_contact, hload] at hg
    | some contacts =>
      simp only [get_contact, hload] at hg
      split at hg <;>
        (simp only [Option.some.injEq, Prod.mk.injEq] at hg; exact hg.1.symm)
  · intro hs
    cases hload : retrieve_contacts file with
    | none => simp [search_contacts, hload] at hs
    | some contacts =>
      cases hm : filterMatches (pyLower query) contacts with
      | none => simp [search_contacts, hload, hm] at hs
      | some matched =>
        simp only [search_contacts, hload, hm] at hs
        split at hs <;>
          (simp only [Option.some.injEq, Prod.mk.injEq] at hs; exact hs.1.symm)

theorem claim_C10_witness :
    save_contacts [contactBo] = save_contacts [contactBo] ∧
    save_contacts [contactBo] = save_contacts [contactBo] ∧
    save_contacts [contactBo] = save_contacts [contactBo] := by
  refine ⟨?_, ?_, ?_⟩
  · exact (claim_C10 (save_contacts [contactBo]) (save_contacts [contactBo])
      { code := 200, message := msgRetrieved, data := .listing [contactBo], status := 200 }
      2 ['o']).1 (by decide)
  · exact (claim_C10 (save_contacts [contactBo]) (save_contacts [contactBo])
      { code := 200, message := msgOneRetrieved, data := .record contactBo, status := 200 }
      2 ['o']).2.1 (by decide)
  · exact (claim_C10 (save_contacts [contactBo]) (save_contacts [contactBo])
      { code := 200, message := msgRetrieved, data := .listing [contactBo], status := 200 }
      2 ['o']).2.2 (by decide)

end ContactsApi
